import Mathlib

/-!
Verification development for the "calmhn" single-page application.

The TypeScript sources (`App.tsx` in its variants, and `main.tsx`) are embedded
shallowly: the pure helpers (`formatTime`, `getDomain`, the filter/map/sort
pipeline of `fetchTopStories`) become Lean functions, the effectful parts
(fetch outcome, document attribute, local storage) become explicit values and
state records.  JavaScript numbers occurring in time arithmetic are modelled
over `ℚ`; the `NaN` an identifier can take through `parseInt` is modelled with
`Option`.
-/

namespace CalmHN

/-- Record shape returned by the Algolia search API (`interface AlgoliaStory`).
A missing `title` in the raw JSON is modelled as the empty string: both are
falsy in JavaScript and every code path treats the two identically. -/
structure AlgoliaStory where
  objectID : String
  title : String
  url : Option String
  points : Int
  author : String
  created_at_i : Int
  num_comments : Option Int
  deriving DecidableEq, Repr

/-- Display shape (`interface HNStory`).  The `id` field is produced by the
JavaScript `parseInt` builtin, which can yield `NaN`; a `NaN` identifier is
modelled as `none`.  The source field `by` is spelled `by_` because `by` is a
reserved word in Lean. -/
structure HNStory where
  id : Option Int
  title : String
  url : Option String
  score : Int
  by_ : String
  time : Int
  descendants : Option Int
  deriving DecidableEq, Repr

/-- Characters treated as WhiteSpace or LineTerminator by `parseInt`. -/
def isJsSpace (c : Char) : Bool :=
  c = ' ' || c = '\t' || c = '\n' || c = '\r' || c = '\x0b' || c = '\x0c'

/-- Numeric value of a hexadecimal digit character, `none` otherwise; the code
point ranges are 0-9 (48-57), a-f (97-102) and A-F (65-70). -/
def digitVal (c : Char) : Option Nat :=
  let n := c.toNat
  if 48 ≤ n ∧ n ≤ 57 then some (n - 48)
  else if 97 ≤ n ∧ n ≤ 102 then some (n - 87)
  else if 65 ≤ n ∧ n ≤ 70 then some (n - 55)
  else none

/-- Does `c` denote a digit in the given base (here 10 or 16)? -/
def isDigitInBase (base : Nat) (c : Char) : Bool :=
  match digitVal c with
  | some v => v < base
  | none => false

/-- Models the ECMAScript builtin `parseInt(string)` with no radix argument:
leading whitespace is skipped, an optional sign is read, a leading `0x`/`0X`
selects base 16, and the longest run of digits of the base that follows is
converted; the result is `NaN` (modelled as `none`) when that run is empty. -/
def parseIntJS (s : String) : Option Int :=
  let cs := s.data.dropWhile isJsSpace
  let signAndRest : Int × List Char :=
    match cs with
    | '-' :: r => (-1, r)
    | '+' :: r => (1, r)
    | r => (1, r)
  let baseAndRest : Nat × List Char :=
    match signAndRest.2 with
    | '0' :: 'x' :: r => (16, r)
    | '0' :: 'X' :: r => (16, r)
    | r => (10, r)
  let digits := baseAndRest.2.takeWhile (isDigitInBase baseAndRest.1)
  if digits.isEmpty then none
  else some (signAndRest.1 *
    digits.foldl (fun n c => n * (baseAndRest.1 : Int) + ((digitVal c).getD 0 : Int)) 0)

/-- The filter predicate `story => story.title && story.points` of
`fetchTopStories`: JavaScript truthiness of a string is non-emptiness, and of
a number is being non-zero. -/
def keepStory (s : AlgoliaStory) : Bool :=
  !(s.title == "") && !(s.points == 0)

/-- The mapping step of `fetchTopStories`, building an `HNStory` from an
`AlgoliaStory`. -/
def toHNStory (s : AlgoliaStory) : HNStory :=
  { id := parseIntJS s.objectID
    title := s.title
    url := s.url
    score := s.points
    by_ := s.author
    time := s.created_at_i
    descendants := s.num_comments }

/-- One step of the stable sort: insert `x` into a list already sorted by
score descending, after every element of strictly larger score and before the
first element whose score is not larger. -/
def insertStory (x : HNStory) : List HNStory → List HNStory
  | [] => [x]
  | h :: t => if x.score < h.score then h :: insertStory x t else x :: h :: t

/-- Stable sort by score descending, modelling
`.sort((a, b) => b.score - a.score)`: ECMAScript `Array.prototype.sort` is
specified to be stable and this comparator orders by score descending. -/
def sortByScoreDesc : List HNStory → List HNStory
  | [] => []
  | h :: t => insertStory h (sortByScoreDesc t)

/-- The `convertedStories` pipeline of `fetchTopStories`: filter out stories
without a truthy title or truthy points, map to the display shape, sort by
score descending. -/
def convertedStories (algoliaStories : List AlgoliaStory) : List HNStory :=
  sortByScoreDesc ((algoliaStories.filter keepStory).map toHNStory)

/-- A JavaScript thrown value: either an `Error` instance carrying a message,
or any other value (for which `err instanceof Error` is false). -/
inductive JsValue where
  | error (message : String)
  | nonError
  deriving DecidableEq, Repr

/-- The message the `catch` block extracts:
`err instanceof Error ? err.message : 'Something went wrong'`. -/
def jsMessage : JsValue → String
  | .error m => m
  | .nonError => "Something went wrong"

/-- The possible outcomes of the `fetch` and `response.json()` calls in
`fetchTopStories`: the request itself may reject, or a response arrives with a
status (`ok` flag) and, when the body is read, either a parse failure or a
parsed list of hits. -/
inductive FetchOutcome where
  | reject (e : JsValue)
  | respond (ok : Bool) (body : Except JsValue (List AlgoliaStory))
  deriving Repr

/-- The component state touched by `fetchTopStories`: `stories`, `loading`,
`error`. -/
structure ViewState where
  stories : List HNStory
  loading : Bool
  error : Option String
  deriving DecidableEq, Repr

/-- Models one run of `fetchTopStories` from the initial state: the `try`
block fetches, throws `Error('Failed to fetch stories')` on a non-ok status,
parses the JSON body and converts the hits; the `catch` block stores
`err.message` when the thrown value is an `Error` and `'Something went wrong'`
otherwise; `finally` clears `loading`. -/
def fetchTopStories (o : FetchOutcome) : ViewState :=
  match o with
  | .reject e => { stories := [], loading := false, error := some (jsMessage e) }
  | .respond ok body =>
    if ok then
      match body with
      | .error e => { stories := [], loading := false, error := some (jsMessage e) }
      | .ok hits => { stories := convertedStories hits, loading := false, error := none }
    else
      { stories := [], loading := false, error := some "Failed to fetch stories" }

/-- Did the HTTP response arrive with a non-successful status? -/
def httpNotOk : FetchOutcome → Bool
  | .respond ok _ => !ok
  | .reject _ => false

/-- Did the request itself, or the JSON body parsing, fail? -/
def requestFailed : FetchOutcome → Bool
  | .reject _ => true
  | .respond _ (.error _) => true
  | .respond _ (.ok _) => false

/-- The value thrown inside the `try` block, when one is thrown. -/
def thrownOf : FetchOutcome → Option JsValue
  | .reject e => some e
  | .respond ok body =>
    if ok then
      match body with
      | .error e => some e
      | .ok _ => none
    else some (JsValue.error "Failed to fetch stories")

/-- Models `formatTime` of App.tsx.  The JavaScript number arithmetic
(`Date.now() / 1000`, subtraction, `Math.floor` of a division) is modelled
over `ℚ`; the current clock reading `now` is passed explicitly. -/
def formatTime (now timestamp : ℚ) : String :=
  let diff := now - timestamp
  let hours := ⌊diff / 3600⌋
  if hours < 1 then "just now"
  else if hours = 1 then "1 hour ago"
  else if hours < 24 then toString hours ++ " hours ago"
  else
    let days := ⌊(hours : ℚ) / 24⌋
    if days = 1 then "1 day ago"
    else toString days ++ " days ago"

/-- Replace the first occurrence of `pat` in `s` by `repl`, on character
lists; models the ECMAScript `String.prototype.replace` with a string
pattern, which replaces only the first match. -/
def replaceFirstL (pat repl : List Char) : List Char → List Char
  | [] => if pat.isPrefixOf ([] : List Char) then repl else []
  | c :: cs =>
    if pat.isPrefixOf (c :: cs) then repl ++ (c :: cs).drop pat.length
    else c :: replaceFirstL pat repl cs

/-- Index of the first occurrence of `pat` in `s`, if any. -/
def firstOccurL (pat : List Char) : List Char → Option Nat
  | [] => if pat.isPrefixOf ([] : List Char) then some 0 else none
  | c :: cs =>
    if pat.isPrefixOf (c :: cs) then some 0
    else (firstOccurL pat cs).map (· + 1)

/-- String wrapper around `replaceFirstL`, modelling
`s.replace(pat, repl)` for string `pat`. -/
def replaceFirstStr (s pat repl : String) : String :=
  ⟨replaceFirstL pat.data repl.data s.data⟩

/-- Is `c` a character permitted in a (non-IPv6, already percent-encoded)
host, per the WHATWG forbidden-host-code-point list? -/
def isHostChar (c : Char) : Bool :=
  !(c ≤ ' ' || c = '#' || c = '/' || c = ':' || c = '<' || c = '>' || c = '?' ||
    c = '@' || c = '[' || c = '\\' || c = ']' || c = '^' || c = '|' || c = '\x7f')

/-- May `c` appear in a URL scheme after its first character? -/
def isSchemeChar (c : Char) : Bool :=
  c.isAlphanum || c = '+' || c = '-' || c = '.'

/-- The URL schemes the WHATWG standard calls special and for which the
authority (and hence a non-empty host) is mandatory; `file` is left out of the
model (the repository never builds `file:` URLs). -/
def isSpecialScheme (s : List Char) : Bool :=
  let l := s.map Char.toLower
  l = "http".data || l = "https".data || l = "ws".data || l = "wss".data || l = "ftp".data

/-- Models hostname extraction by the WHATWG URL constructor,
`new URL(url).hostname`, for the inputs this repository can feed it: an
absolute URL standing alone (no base argument).  Returns `none` exactly when
the constructor would throw.  Simplifications, each irrelevant to the stories'
`http(s)` URLs: tab and newline stripping inside the input, IPv6 bracket
hosts, percent-decoding and IDNA mapping of the host, and the `file` scheme
are not modelled; a non-special scheme yields the empty hostname of an opaque
path. -/
def urlHostname (url : String) : Option String :=
  let cs := (url.data.dropWhile (· ≤ ' ')).reverse.dropWhile (· ≤ ' ') |>.reverse
  let scheme := cs.takeWhile isSchemeChar
  let rest := cs.drop scheme.length
  match scheme, rest with
  | [], _ => none
  | c :: _, ':' :: afterColon =>
    if !c.isAlpha then none
    else if isSpecialScheme scheme then
      let afterSlashes := afterColon.dropWhile (fun c => c = '/' || c = '\\')
      let authority := afterSlashes.takeWhile
        (fun c => !(c = '/' || c = '\\' || c = '?' || c = '#'))
      let hostPort := if authority.contains '@' then
          (authority.reverse.takeWhile (· ≠ '@')).reverse
        else authority
      let host := hostPort.takeWhile (· ≠ ':')
      let port := hostPort.drop (host.length + 1)
      if host.isEmpty then none
      else if !(host.all isHostChar) then none
      else if hostPort.contains ':' && !(port.all Char.isDigit) then none
      else some ⟨host.map Char.toLower⟩
    else some ""
  | _, _ => none

/-- Models `getDomain` of App.tsx: a falsy (absent or empty) URL gives
`null`; otherwise the URL's hostname with the first `"www."` occurrence
removed, or `null` when the URL constructor throws. -/
def getDomain : Option String → Option String
  | none => none
  | some url =>
    if url = "" then none
    else
      match urlHostname url with
      | some h => some (replaceFirstStr h "www." "")
      | none => none

/-- The browser-visible state the CVD preference code manipulates: the
`data-cvd` attribute on `document.body` and the `cvd-preference` key in
`localStorage`; `none` means the attribute or key is absent. -/
structure CvdState where
  attr : Option String
  stored : Option String
  deriving DecidableEq, Repr

/-- Models the top-level statements of main.tsx: read the `cvd` query
parameter (`none` when absent); when it is one of the two known modes, set
the body attribute and persist it; otherwise apply the persisted value when
it is one of the two known modes. -/
def cvdStartup (cvdParam : Option String) (s : CvdState) : CvdState :=
  if cvdParam = some "protanopia" ∨ cvdParam = some "deuteranopia" then
    { attr := cvdParam, stored := cvdParam }
  else
    match s.stored with
    | some v =>
      if v = "protanopia" ∨ v = "deuteranopia" then { s with attr := some v } else s
    | none => s

/-- Models `handleCvdChange` of the selector variant of App.tsx (the React
`setCvdMode` state update is omitted: it only feeds the selector's displayed
value). -/
def handleCvdChange (mode : Option String) (_s : CvdState) : CvdState :=
  match mode with
  | some m => { attr := some m, stored := some m }
  | none => { attr := none, stored := none }

example : parseIntJS "123abc" = some 123 := by decide
example : parseIntJS "abc" = none := by decide
example : parseIntJS "  -42" = some (-42) := by decide
example : parseIntJS "0x1A" = some 26 := by decide
example :
    convertedStories
      [⟨"2", "b", none, 5, "u", 0, none⟩, ⟨"1", "a", none, 7, "v", 0, none⟩,
       ⟨"3", "", none, 9, "w", 0, none⟩, ⟨"4", "d", none, 0, "x", 0, none⟩] =
      [⟨some 1, "a", none, 7, "v", 0, none⟩, ⟨some 2, "b", none, 5, "u", 0, none⟩] := by
  decide

/-! Helper lemmas -/

/-- Inserting an element is, up to order, just adding it. -/
theorem insertStory_perm (x : HNStory) (l : List HNStory) :
    (insertStory x l).Perm (x :: l) := by
  induction l with
  | nil => simp [insertStory]
  | cons h t ih =>
    rw [insertStory]
    split
    · exact (ih.cons h).trans (List.Perm.swap x h t)
    · exact List.Perm.refl _

/-- The sort permutes its input. -/
theorem sortByScoreDesc_perm (l : List HNStory) : (sortByScoreDesc l).Perm l := by
  induction l with
  | nil => exact List.Perm.refl _
  | cons h t ih => exact (insertStory_perm h (sortByScoreDesc t)).trans (ih.cons h)

/-- Insertion preserves the non-increasing-score invariant. -/
theorem insertStory_pairwise {x : HNStory} {l : List HNStory}
    (hl : l.Pairwise (fun a b => b.score ≤ a.score)) :
    (insertStory x l).Pairwise (fun a b => b.score ≤ a.score) := by
  induction l with
  | nil => simp [insertStory]
  | cons h t ih =>
    rw [List.pairwise_cons] at hl
    obtain ⟨hh, ht⟩ := hl
    rw [insertStory]
    split
    · rename_i hlt
      rw [List.pairwise_cons]
      refine ⟨?_, ih ht⟩
      intro b hb
      rcases List.mem_cons.mp ((insertStory_perm x t).mem_iff.mp hb) with hb | hb
      · subst hb; exact le_of_lt hlt
      · exact hh b hb
    · rename_i hge
      push_neg at hge
      rw [List.pairwise_cons]
      refine ⟨?_, List.pairwise_cons.mpr ⟨hh, ht⟩⟩
      intro b hb
      rcases List.mem_cons.mp hb with hb | hb
      · subst hb; exact hge
      · exact le_trans (hh b hb) hge

/-- The sort output has non-increasing scores. -/
theorem sortByScoreDesc_pairwise (l : List HNStory) :
    (sortByScoreDesc l).Pairwise (fun a b => b.score ≤ a.score) := by
  induction l with
  | nil => simp [sortByScoreDesc]
  | cons h t ih => exact insertStory_pairwise ih

/-- Stability of one insertion: the sublist of any fixed score is unchanged,
because the inserted element passes only over strictly larger scores. -/
theorem insertStory_filter_score (x : HNStory) (l : List HNStory) (s : Int) :
    (insertStory x l).filter (fun st => st.score == s) =
      (x :: l).filter (fun st => st.score == s) := by
  induction l with
  | nil => rfl
  | cons h t ih =>
    rw [insertStory]
    split
    · rename_i hlt
      by_cases hx : x.score = s
      · have hh : ¬ h.score = s := by omega
        simp [List.filter_cons, hx, hh, ih]
      · simp [List.filter_cons, hx, ih]
    · rfl

/-- Stability of the sort: for every score, the elements carrying that score
appear in the output in their original order. -/
theorem sortByScoreDesc_filter_score (l : List HNStory) (s : Int) :
    (sortByScoreDesc l).filter (fun st => st.score == s) =
      l.filter (fun st => st.score == s) := by
  induction l with
  | nil => rfl
  | cons h t ih =>
    rw [sortByScoreDesc, insertStory_filter_score, List.filter_cons, List.filter_cons, ih]

/-- Unfolded form of `formatTime` with the `let` bindings substituted. -/
theorem formatTime_eq (now ts : ℚ) :
    formatTime now ts =
      if ⌊(now - ts) / 3600⌋ < 1 then "just now"
      else if ⌊(now - ts) / 3600⌋ = 1 then "1 hour ago"
      else if ⌊(now - ts) / 3600⌋ < 24 then toString ⌊(now - ts) / 3600⌋ ++ " hours ago"
      else if ⌊(⌊(now - ts) / 3600⌋ : ℚ) / 24⌋ = 1 then "1 day ago"
      else toString ⌊(⌊(now - ts) / 3600⌋ : ℚ) / 24⌋ ++ " days ago" := rfl

/-- When the pattern never occurs, first-occurrence replacement is the
identity. -/
theorem replaceFirstL_of_none (pat repl s : List Char)
    (h : firstOccurL pat s = none) : replaceFirstL pat repl s = s := by
  induction s with
  | nil =>
    rw [firstOccurL] at h
    rw [replaceFirstL]
    split at h
    · cases h
    · rw [if_neg ‹¬_›]
  | cons c cs ih =>
    rw [firstOccurL] at h
    rw [replaceFirstL]
    by_cases hp : pat.isPrefixOf (c :: cs)
    · rw [if_pos hp] at h; cases h
    · rw [if_neg hp] at h
      rw [if_neg hp, ih (Option.map_eq_none'.mp h)]

/-- First-occurrence replacement splices `repl` in place of the occurrence at
the first matching index. -/
theorem replaceFirstL_of_some (pat repl : List Char) (s : List Char) (i : Nat)
    (h : firstOccurL pat s = some i) :
    replaceFirstL pat repl s = s.take i ++ repl ++ s.drop (i + pat.length) := by
  induction s generalizing i with
  | nil =>
    rw [firstOccurL] at h
    split at h
    · rename_i hp
      cases pat with
      | nil =>
        cases h
        rw [replaceFirstL, if_pos hp]
        simp
      | cons p ps => cases hp
    · cases h
  | cons c cs ih =>
    rw [firstOccurL] at h
    by_cases hp : pat.isPrefixOf (c :: cs)
    · rw [if_pos hp] at h
      cases h
      rw [replaceFirstL, if_pos hp]
      simp
    · rw [if_neg hp] at h
      obtain ⟨j, hj, rfl⟩ := Option.map_eq_some'.mp h
      rw [replaceFirstL, if_neg hp, ih j hj]
      have harith : j + 1 + pat.length = (j + pat.length) + 1 := by omega
      rw [harith]
      simp

/-! Claim theorems -/

/-- C1: the transformer retains exactly the records whose title is non-empty
and whose points are non-zero, and each retained record's title, url, points
(as score), author (as by), created_at_i (as time) and num_comments (as
descendants) pass through unchanged, the identifier being obtained by parsing
objectID; the output is that list up to the reordering done by the sort. -/
theorem converted_filter_fields (hits : List AlgoliaStory) :
    (convertedStories hits).Perm
      ((hits.filter (fun r => !(r.title == "" || r.points == 0))).map
        (fun r => ({ id := parseIntJS r.objectID, title := r.title, url := r.url,
                     score := r.points, by_ := r.author, time := r.created_at_i,
                     descendants := r.num_comments } : HNStory))) := by
  have hpred : (fun r : AlgoliaStory => !(r.title == "" || r.points == 0)) = keepStory := by
    funext r
    simp [keepStory, Bool.not_or]
  rw [hpred]
  exact sortByScoreDesc_perm _

/-- C2: the transformer's output is sorted non-increasing by score, and for
every score the stories carrying it appear in the order the filtered and
mapped hit list had them (stability). -/
theorem converted_sorted_stable (hits : List AlgoliaStory) :
    (convertedStories hits).Pairwise (fun a b => b.score ≤ a.score) ∧
      ∀ s : Int, (convertedStories hits).filter (fun st => st.score == s) =
        ((hits.filter keepStory).map toHNStory).filter (fun st => st.score == s) :=
  ⟨sortByScoreDesc_pairwise _, fun s => sortByScoreDesc_filter_score _ s⟩

/-- C3 (counterexample): a record with a negative point count is kept, so not
every output story has a positive score; the claim fails on a single hit with
points −1. -/
theorem negative_score_retained :
    ¬ ∀ st ∈ convertedStories [⟨"100", "story", none, -1, "alice", 1000, none⟩],
        0 < st.score := by decide

/-- C3 (amended): the transformer drops exactly the zero-score (falsy)
records, so every story in its output has a non-zero — though not necessarily
positive — score. -/
theorem converted_score_nonzero (hits : List AlgoliaStory) (st : HNStory)
    (hmem : st ∈ convertedStories hits) : st.score ≠ 0 := by
  have h1 : st ∈ (hits.filter keepStory).map toHNStory :=
    (sortByScoreDesc_perm _).mem_iff.mp hmem
  obtain ⟨r, hr, rfl⟩ := List.mem_map.mp h1
  have hk := List.of_mem_filter hr
  simp only [keepStory, Bool.and_eq_true, Bool.not_eq_true', beq_eq_false_iff_ne] at hk
  simpa [toHNStory] using hk.2

/-- Witness for `converted_score_nonzero` at a concrete one-hit input. -/
theorem converted_score_nonzero_w :
    (⟨some 7, "t", none, 3, "bob", 5, none⟩ : HNStory).score ≠ 0 :=
  converted_score_nonzero [⟨"7", "t", none, 3, "bob", 5, none⟩]
    ⟨some 7, "t", none, 3, "bob", 5, none⟩ (by decide)

/-- C9: the transformer does not validate the identifier: a hit whose
objectID has no leading digits still yields a story, with a `NaN` id
(`parseInt` keeps the longest leading digit run and gives `NaN` when there is
none). -/
theorem transformer_nan_id :
    parseIntJS "abc" = none ∧ parseIntJS "123abc" = some 123 ∧
      convertedStories [⟨"abc", "story", none, 5, "carol", 10, none⟩] =
        [⟨none, "story", none, 5, "carol", 10, none⟩] := by decide

/-- C5: for a timestamp at or before now, formatTime renders "just now" under
one elapsed hour, "1 hour ago" when the floored hour count is one, "N hours
ago" for floored hour counts 2 to 23, "1 day ago" when the floored day count
(floor of hours over 24) is one — in particular at exactly 24 hours — and "N
days ago" for larger day counts; the five concrete examples of the spec
follow. -/
theorem formatTime_spec (now ts : ℚ) (h : ts ≤ now) :
    (⌊(now - ts) / 3600⌋ < 1 → formatTime now ts = "just now") ∧
    (⌊(now - ts) / 3600⌋ = 1 → formatTime now ts = "1 hour ago") ∧
    (2 ≤ ⌊(now - ts) / 3600⌋ → ⌊(now - ts) / 3600⌋ < 24 →
      formatTime now ts = toString ⌊(now - ts) / 3600⌋ ++ " hours ago") ∧
    (⌊(⌊(now - ts) / 3600⌋ : ℚ) / 24⌋ = 1 → formatTime now ts = "1 day ago") ∧
    (2 ≤ ⌊(⌊(now - ts) / 3600⌋ : ℚ) / 24⌋ →
      formatTime now ts = toString ⌊(⌊(now - ts) / 3600⌋ : ℚ) / 24⌋ ++ " days ago") ∧
    formatTime now now = "just now" ∧
    formatTime now (now - 3600) = "1 hour ago" ∧
    formatTime now (now - 7200) = "2 hours ago" ∧
    formatTime now (now - 86400) = "1 day ago" ∧
    formatTime now (now - 172800) = "2 days ago" := by
  refine ⟨?_, ?_, ?_, ?_, ?_, ?_, ?_, ?_, ?_, ?_⟩
  · intro h1
    rw [formatTime_eq, if_pos h1]
  · intro h1
    rw [formatTime_eq, if_neg (by omega), if_pos h1]
  · intro h1 h2
    rw [formatTime_eq, if_neg (by omega), if_neg (by omega), if_pos h2]
  · intro h1
    have hge : (24 : ℤ) ≤ ⌊(now - ts) / 3600⌋ := by
      have h24 := (Int.floor_eq_iff (α := ℚ) (z := 1)).mp h1
      have := h24.1
      rw [le_div_iff₀ (by norm_num : (0:ℚ) < 24)] at this
      exact_mod_cast (by push_cast at this ⊢; linarith : (24 : ℚ) ≤ (⌊(now - ts) / 3600⌋ : ℚ))
    rw [formatTime_eq, if_neg (by omega), if_neg (by omega), if_neg (by omega), if_pos h1]
  · intro h1
    have hge : (48 : ℤ) ≤ ⌊(now - ts) / 3600⌋ := by
      have h2 := Int.le_floor.mp h1
      rw [le_div_iff₀ (by norm_num : (0:ℚ) < 24)] at h2
      exact_mod_cast (by push_cast at h2 ⊢; linarith : (48 : ℚ) ≤ (⌊(now - ts) / 3600⌋ : ℚ))
    rw [formatTime_eq, if_neg (by omega), if_neg (by omega), if_neg (by omega),
      if_neg (by omega)]
  · have e : now - now = 0 := by ring
    rw [formatTime_eq, e]
    norm_num
  · have e : now - (now - 3600) = 3600 := by ring
    rw [formatTime_eq, e]
    norm_num
  · have e : now - (now - 7200) = 7200 := by ring
    have hfl : ⌊(7200 : ℚ) / 3600⌋ = 2 := by norm_num
    rw [formatTime_eq, e, hfl]
    norm_num
    decide
  · have e : now - (now - 86400) = 86400 := by ring
    have hfl : ⌊(86400 : ℚ) / 3600⌋ = 24 := by norm_num
    rw [formatTime_eq, e, hfl]
    norm_num
  · have e : now - (now - 172800) = 172800 := by ring
    have hfl : ⌊(172800 : ℚ) / 3600⌋ = 48 := by norm_num
    have hfl2 : ⌊(48 : ℚ) / 24⌋ = 2 := by norm_num
    rw [formatTime_eq, e, hfl]
    push_cast
    rw [hfl2]
    norm_num
    decide

/-- Witness for `formatTime_spec`: one elapsed hour at concrete inputs. -/
theorem formatTime_spec_w : formatTime 10000 6400 = "1 hour ago" :=
  (formatTime_spec 10000 6400 (by norm_num)).2.1 (by norm_num)

/-- C10: for a timestamp strictly in the future the elapsed time is negative,
its floored hour count is below one, and formatTime renders "just now". -/
theorem formatTime_future (now ts : ℚ) (h : now < ts) :
    formatTime now ts = "just now" := by
  rw [formatTime_eq, if_pos]
  apply Int.floor_lt.mpr
  push_cast
  rw [div_lt_one (by norm_num : (0:ℚ) < 3600)]
  linarith

/-- Witness for `formatTime_future` at a concrete future timestamp. -/
theorem formatTime_future_w : formatTime 0 3600 = "just now" :=
  formatTime_future 0 3600 (by norm_num)

/-- C6: the run ends in the error state exactly when the response status is
not ok or the request or JSON parsing fails; the error text is the thrown
failure's message, or "Something went wrong" when the thrown value is not an
Error; a successful response with valid JSON never sets an error. -/
theorem fetch_error_spec (o : FetchOutcome) :
    ((fetchTopStories o).error ≠ none ↔
        (httpNotOk o = true ∨ requestFailed o = true)) ∧
      (∀ m, thrownOf o = some (JsValue.error m) → (fetchTopStories o).error = some m) ∧
      (thrownOf o = some JsValue.nonError →
        (fetchTopStories o).error = some "Something went wrong") := by
  rcases o with (m | _) | ⟨(_ | _), ((m | _) | hits)⟩ <;>
    simp [fetchTopStories, httpNotOk, requestFailed, thrownOf, jsMessage]

/-- Witness for `fetch_error_spec`: a rejected request surfaces its Error
message. -/
theorem fetch_error_spec_w :
    (fetchTopStories (.reject (JsValue.error "network down"))).error =
      some "network down" :=
  (fetch_error_spec (.reject (JsValue.error "network down"))).2.1 "network down" rfl

/-- C7: at startup a query parameter equal to a known mode is applied and
persisted, overriding the stored value; otherwise a known stored value is
applied; any other parameter and stored value leave the attribute unset and
the storage untouched. -/
theorem cvd_startup_spec (param stored₀ : Option String) :
    (∀ p, param = some p → (p = "protanopia" ∨ p = "deuteranopia") →
        cvdStartup param ⟨none, stored₀⟩ = ⟨some p, some p⟩) ∧
      ((∀ p, param = some p → p ≠ "protanopia" ∧ p ≠ "deuteranopia") →
        (∀ v, stored₀ = some v → (v = "protanopia" ∨ v = "deuteranopia") →
            cvdStartup param ⟨none, stored₀⟩ = ⟨some v, some v⟩) ∧
          ((∀ v, stored₀ = some v → v ≠ "protanopia" ∧ v ≠ "deuteranopia") →
            cvdStartup param ⟨none, stored₀⟩ = ⟨none, stored₀⟩)) := by
  constructor
  · rintro p rfl hp
    rcases hp with rfl | rfl <;> simp [cvdStartup]
  · intro hparam
    have hcond : ¬(param = some "protanopia" ∨ param = some "deuteranopia") := by
      rintro (rfl | rfl)
      · exact (hparam _ rfl).1 rfl
      · exact (hparam _ rfl).2 rfl
    constructor
    · rintro v rfl hv
      rcases hv with rfl | rfl <;> simp [cvdStartup, hcond]
    · intro hstored
      rcases stored₀ with _ | v
      · simp [cvdStartup, hcond]
      · have hv := hstored v rfl
        simp [cvdStartup, hcond, hv.1, hv.2]

/-- Witness for `cvd_startup_spec`: a valid parameter overrides a different
stored mode. -/
theorem cvd_startup_spec_w :
    cvdStartup (some "protanopia") ⟨none, some "deuteranopia"⟩ =
      ⟨some "protanopia", some "protanopia"⟩ :=
  (cvd_startup_spec (some "protanopia") (some "deuteranopia")).1 "protanopia" rfl
    (Or.inl rfl)

/-- C8: after any call of handleCvdChange the document attribute and the
stored preference agree: a null mode clears both, a mode string sets both to
it; no call leaves exactly one of the two set. -/
theorem handleCvdChange_spec (mode : Option String) (s : CvdState) :
    (handleCvdChange mode s).attr = (handleCvdChange mode s).stored ∧
      handleCvdChange none s = ⟨none, none⟩ ∧
      ∀ m, mode = some m → handleCvdChange mode s = ⟨some m, some m⟩ := by
  rcases mode with _ | m <;> simp [handleCvdChange]

/-- Witness for `handleCvdChange_spec`: selecting a known mode sets both
attribute and storage. -/
theorem handleCvdChange_spec_w :
    handleCvdChange (some "deuteranopia") ⟨some "protanopia", some "protanopia"⟩ =
      ⟨some "deuteranopia", some "deuteranopia"⟩ :=
  (handleCvdChange_spec (some "deuteranopia")
    ⟨some "protanopia", some "protanopia"⟩).2.2 "deuteranopia" rfl

/-- C4 (counterexample): `replace('www.', '')` removes the first occurrence
of "www." anywhere in the hostname, not only a leading one: for a hostname
"en.www.example.com" the inner "www." is stripped rather than kept. -/
theorem getDomain_inner_www :
    urlHostname "https://en.www.example.com/" = some "en.www.example.com" ∧
      getDomain (some "https://en.www.example.com/") = some "en.example.com" ∧
      ("en.example.com" : String) ≠ "en.www.example.com" := by decide

/-- C4 (amended): getDomain parses the story URL and removes the first
occurrence of "www." anywhere in the hostname (not only a leading one),
returning null when the URL is absent or unparseable; the spec's three
examples hold. -/
theorem getDomain_spec :
    getDomain none = none ∧
      getDomain (some "not a url") = none ∧
      getDomain (some "https://www.example.com/x") = some "example.com" ∧
      (∀ url, urlHostname url = none → getDomain (some url) = none) ∧
      (∀ url host i, urlHostname url = some host →
        firstOccurL ("www." : String).data host.data = some i →
        getDomain (some url) = some ⟨host.data.take i ++ host.data.drop (i + 4)⟩) ∧
      (∀ url host, urlHostname url = some host →
        firstOccurL ("www." : String).data host.data = none →
        getDomain (some url) = some host) := by
  refine ⟨by decide, by decide, by decide, ?_, ?_, ?_⟩
  · intro url hu
    rcases h0 : decide (url = "") with _ | _
    · simp only [getDomain, if_neg (of_decide_eq_false h0), hu]
    · simp [getDomain, of_decide_eq_true h0]
  · intro url host i hu ho
    have hne : url ≠ "" := by
      rintro rfl
      rw [show urlHostname "" = none from rfl] at hu
      cases hu
    simp only [getDomain, if_neg hne, hu]
    rw [replaceFirstStr, replaceFirstL_of_some _ _ _ i ho]
    simp
  · intro url host hu ho
    have hne : url ≠ "" := by
      rintro rfl
      rw [show urlHostname "" = none from rfl] at hu
      cases hu
    simp only [getDomain, if_neg hne, hu]
    rw [replaceFirstStr, replaceFirstL_of_none _ _ _ ho]

/-- Witness for `getDomain_spec`: occurrence at index 0 strips the leading
"www.". -/
theorem getDomain_spec_w :
    getDomain (some "https://www.archive.org/details") =
      some ⟨("www.archive.org" : String).data.take 0 ++
        ("www.archive.org" : String).data.drop (0 + 4)⟩ :=
  getDomain_spec.2.2.2.2.1 "https://www.archive.org/details" "www.archive.org" 0
    (by decide) (by decide)

end CalmHN
